import Mathlib

/-!
Verification development for the nanobot agent gateway.

Shallow embedding of the core components referenced by the checked claims:

* `ToolRegistry.execute`            (src/nanobot/agent/tools/registry.py)
* the agent reason-act loops        (src/nanobot/agent/loop.py)
* the SSE request context / emitter (src/nanobot/sse/context.py, emitter.py)
* the SSE handler                   (src/nanobot/sse/handler.py)
* `LiteLLMProvider.chat`            (src/nanobot/providers/litellm_provider.py)
* the glob pattern matcher          (`AgentLoop._match_patterns`, which calls
                                     the Python standard library `fnmatch`)

Python dataclasses become Lean structures; `async` effects are modelled by
explicit state passing; calls that cross a process boundary (the LLM
provider, the event-loop machinery, `uuid4` message-id generation) are
modelled by oracles, with the provider oracle indexed by the call number;
a raised exception is modelled as the `Except.error` arm carrying
`str(e)`.  Modules of the repository that are not shipped under src/ (the
context builder, the session store, the Tool base-class bodies) are
modelled from the spec and carry a doc comment saying so.  Recursive
functions carry an explicit `fuel` argument equal to their termination
measure so that every definition reduces in the kernel.
-/

namespace Nanobot

/-! ### Tool registry  (src/nanobot/agent/tools/registry.py)

A registered tool is abstracted by the two behaviours that
`ToolRegistry.execute` consumes: `validate_params` (which in Python
returns a list of error strings and may itself raise) and `execute`
(which returns the result string or raises).  A raise is the
`Except.error` arm carrying `str(e)`.  The parameter-dictionary type is
left abstract; the agent loops instantiate it with the raw JSON text of
the arguments, which no verified claim inspects structurally. -/

structure Tool (P : Type) where
  validate_params : P → Except String (List String)
  execute : P → Except String String

/-- The `_tools` dict: name → Tool.  Only lookup is needed by `execute`;
the dict is carried as an association list queried with first match (the
registry never holds duplicate keys because `register` overwrites). -/
def lookupTool {P : Type} : List (String × Tool P) → String → Option (Tool P)
  | [], _ => none
  | (k, t) :: rest, name => if k = name then some t else lookupTool rest name

namespace ToolRegistry

/-- Embeds `ToolRegistry.execute` (registry.py lines 111-135).  The Python body:

* missing tool → `"Error: Tool '{name}' not found"`;
* `tool.validate_params(params)` non-empty → `"Error: Invalid parameters
  for tool '{name}': " + "; ".join(errors)`;
* any exception from `validate_params` or `tool.execute` is caught and
  becomes `"Error executing {name}: {str(e)}"`;
* otherwise the tool's result string is returned.  -/
def execute {P : Type} (tools : List (String × Tool P)) (name : String) (params : P) :
    String :=
  match lookupTool tools name with
  | none => "Error: Tool '" ++ name ++ "' not found"
  | some tool =>
    match tool.validate_params params with
    | .error e => "Error executing " ++ name ++ ": " ++ e
    | .ok errors =>
      if errors.isEmpty then
        match tool.execute params with
        | .error e => "Error executing " ++ name ++ ": " ++ e
        | .ok result => result
      else
        "Error: Invalid parameters for tool '" ++ name ++ "': " ++
          String.intercalate "; " errors

end ToolRegistry

/-! ### Glob pattern matching

`AgentLoop._match_patterns` (loop.py lines 849-880) filters names with
the Python standard library `fnmatch.fnmatch`, which case-normalizes both
arguments (the identity on POSIX), translates the pattern to an anchored
regular expression and matches the name fully against it.  The
translation (CPython 3.11 `fnmatch.translate`) produces: `*` → an
unanchored gap, `?` → any single character, `[...]` → a character class
with optional `!` negation and `-` ranges (with CPython's exact chunking
quirks: the first member character can never close a range, the two
characters following a range separator cannot open one, a trailing empty
chunk re-attaches its dash as a literal, and empty or reversed ranges are
merged away), everything else → a literal character.  The atomic-group
minimal-match encoding CPython uses for interior `*` segments is
equivalent to ordinary backtracking glob matching because every
continuation language is closed under extending the matched gap; the
embedding uses the backtracking form. -/

/-- One member of a regex character class: a literal or an inclusive range. -/
inductive ClassItem where
  | one : Char → ClassItem
  | rng : Char → Char → ClassItem
deriving DecidableEq, Repr

/-- One translated glob token (`fnmatch.translate` output element). -/
inductive GlobTok where
  | star : GlobTok
  | any : GlobTok
  | lit : Char → GlobTok
  | cls : Bool → List ClassItem → GlobTok
  | never : GlobTok
deriving DecidableEq, Repr

/-- A character of the joined class text: a chunk-internal (literal)
character or the `-` separator joining two chunks. -/
inductive CC where
  | lit : Char → CC
  | sep : CC
deriving DecidableEq, Repr

/-- The chunk loop of `fnmatch.translate` for class bodies containing `-`:
scan for unprotected dashes; the first character is protected (`k = i+1`,
or `k = i+2` past a leading `!`), and after each split the next two
characters are protected (`k = k+3`). -/
def chunkGo (immune : Nat) (cur : List Char) (acc : List (List Char)) :
    List Char → List (List Char)
  | [] =>
    if cur.isEmpty then
      -- `chunk` empty: re-attach the dash to the last chunk
      -- (`chunks[-1] += '-'` in the Python source).
      chunkAppendDash acc
    else acc ++ [cur.reverse]
  | c :: rest =>
    match immune with
    | n + 1 => chunkGo n (c :: cur) acc rest
    | 0 =>
      if c = '-' then chunkGo 2 [] (acc ++ [cur.reverse]) rest
      else chunkGo 0 (c :: cur) acc rest
where
  chunkAppendDash : List (List Char) → List (List Char)
    | [] => [['-']]
    | [l] => [l ++ ['-']]
    | l :: rest => l :: chunkAppendDash rest

/-- The empty-range removal pass of `fnmatch.translate`: walking from the
right, a chunk boundary whose left endpoint exceeds its right endpoint is
merged away, dropping both endpoint characters. -/
def mergeChunks : List (List Char) → List (List Char)
  | [] => []
  | c :: rest =>
    match mergeChunks rest with
    | [] => [c]
    | d :: ds =>
      match c.getLast?, d.head? with
      | some x, some y => if y < x then (c.dropLast ++ d.tail) :: ds else c :: d :: ds
      | _, _ => c :: d :: ds

/-- Embeds `'-'.join(chunks)` at the character level: chunk-internal characters
are literals (their dashes are regex-escaped by the source), boundary
dashes are potential range separators. -/
def classText (chunks : List (List Char)) : List CC :=
  ((chunks.map (fun ch => ch.map CC.lit)).intersperse [CC.sep]).flatten

/-- Sequential parse of a regex character-class body: `a-b` around an
unescaped dash is a range, any other character (a dash included) is a
literal. -/
def classItems : List CC → List ClassItem
  | [] => []
  | .lit a :: .sep :: .lit b :: rest => .rng a b :: classItems rest
  | .lit a :: rest => .one a :: classItems rest
  | .sep :: rest => .one '-' :: classItems rest

/-- Translate one scanned class body `stuff` (the text strictly between
`[` and the closing `]`, leading `!` included) into a token, following
`fnmatch.translate`: empty body → never matches, bare `!` → any
character, leading `!` → negated class. -/
def classToken (stuff : List Char) : GlobTok :=
  let bang := match stuff with
    | '!' :: _ => true
    | _ => false
  let body := match stuff with
    | '!' :: rest => rest
    | _ => stuff
  let text : List CC :=
    if stuff.contains '-' then classText (mergeChunks (chunkGo 1 [] [] body))
    else body.map CC.lit
  if text.isEmpty then
    if bang then GlobTok.any else GlobTok.never
  else GlobTok.cls bang (classItems text)

/-- Split a character list at the first `]`, returning the parts before
and after it. -/
def breakRB : List Char → Option (List Char × List Char)
  | [] => none
  | c :: cs =>
    if c = ']' then some ([], cs)
    else match breakRB cs with
      | none => none
      | some (a, b) => some (c :: a, b)

/-- The class scan of `fnmatch.translate`: starting right after `[`, skip
a leading `!`, then a leading `]` (both belong to the class body), then
find the closing `]`.  Returns the body and the remainder of the pattern,
or `none` when the bracket never closes. -/
def classScan (rest : List Char) : Option (List Char × List Char) :=
  match rest with
  | '!' :: ']' :: r2 => (breakRB r2).map (fun p => ('!' :: ']' :: p.1, p.2))
  | '!' :: r1 => (breakRB r1).map (fun p => ('!' :: p.1, p.2))
  | ']' :: r1 => (breakRB r1).map (fun p => (']' :: p.1, p.2))
  | _ => breakRB rest

/-- Embeds `fnmatch.translate`, producing the token list: `*` collapses runs of
stars, `?` is any single character, `[` opens a class scan (an
unterminated `[` is a literal), everything else is a literal.  The `fuel`
argument makes the termination measure (the pattern length, which every
step strictly decreases) explicit; `translateTokens` supplies sufficient
fuel. -/
def translateTokensF : Nat → List Char → List GlobTok
  | 0, _ => []
  | _ + 1, [] => []
  | f + 1, '*' :: rest => .star :: translateTokensF f (rest.dropWhile (fun c => c = '*'))
  | f + 1, '?' :: rest => .any :: translateTokensF f rest
  | f + 1, '[' :: rest =>
    match classScan rest with
    | none => .lit '[' :: translateTokensF f rest
    | some (stuff, rem) => classToken stuff :: translateTokensF f rem
  | f + 1, c :: rest => .lit c :: translateTokensF f rest

/-- Embeds `fnmatch.translate` with the fuel fixed to the pattern length. -/
def translateTokens (pat : List Char) : List GlobTok :=
  translateTokensF (pat.length + 1) pat

/-- Whether a single (non-star) token matches one character. -/
def oneMatch : GlobTok → Char → Bool
  | .star, _ => false
  | .any, _ => true
  | .lit c, d => c = d
  | .never, _ => false
  | .cls bang items, d =>
    let mem := items.any (fun it =>
      match it with
      | .one c => c = d
      | .rng a b => a ≤ d && d ≤ b)
    if bang then !mem else mem

/-- Full-string glob matching of a token list against a character list
(the backtracking equivalent of matching `translate`'s anchored regex).
The `fuel` argument makes the termination measure (tokens plus characters
remaining, which every step strictly decreases) explicit; `globMatch`
supplies sufficient fuel. -/
def globMatchF : Nat → List GlobTok → List Char → Bool
  | 0, _, _ => false
  | _ + 1, [], [] => true
  | _ + 1, [], _ :: _ => false
  | f + 1, .star :: ps, [] => globMatchF f ps []
  | f + 1, .star :: ps, c :: cs =>
    globMatchF f ps (c :: cs) || globMatchF f (.star :: ps) cs
  | _ + 1, _ :: _, [] => false
  | f + 1, p :: ps, c :: cs => oneMatch p c && globMatchF f ps cs

/-- Glob matching with the fuel fixed to its tight bound. -/
def globMatch (ps : List GlobTok) (cs : List Char) : Bool :=
  globMatchF (ps.length + cs.length + 1) ps cs

/-- Embeds `fnmatch.fnmatch(name, pat)` (POSIX case normalization is the
identity). -/
def fnmatchB (name pat : String) : Bool :=
  globMatch (translateTokens pat.data) name.data

/-- The inner loop of `AgentLoop._match_patterns` (loop.py lines 871-880):
walk the names in order; a name matched by at least one pattern is kept
on first sight and dropped on later sights. -/
def matchLoop (patterns : List String) : List String → List String → List String
  | [], _ => []
  | n :: ns, seen =>
    if patterns.any (fun pat => fnmatchB n pat) then
      if n ∈ seen then matchLoop patterns ns seen
      else n :: matchLoop patterns ns (n :: seen)
    else matchLoop patterns ns seen

/-- Embeds `AgentLoop._match_patterns` (loop.py lines 849-880). -/
def matchPatterns (names patterns : List String) : List String :=
  if patterns = [] ∨ patterns = ["*"] then names
  else matchLoop patterns names []

/-- Order-preserving first-occurrence deduplication, the reference shape
that `_match_patterns` is compared against (`seen` carries the names
already kept). -/
def firstDedup : List String → List String → List String
  | [], _ => []
  | n :: ns, seen =>
    if n ∈ seen then firstDedup ns seen else n :: firstDedup ns (n :: seen)

/-! ### LLM provider output shapes  (src/nanobot/providers/base.py)

Tool-call arguments are carried as their raw JSON text: the agent loops
hand them to the registry and to the SSE emitter without inspecting their
structure, so the embedding does not need a JSON object model. -/

/-- Embeds `ToolCallRequest` (base.py lines 8-13). -/
structure ToolCallRequest where
  id : String
  name : String
  arguments : String
deriving DecidableEq, Repr

/-- Embeds `LLMResponse` (base.py lines 16-28); the `usage` counters play no role
in any claim and are omitted. -/
structure LLMResponse where
  content : Option String
  tool_calls : List ToolCallRequest
  finish_reason : String
  reasoning_content : Option String
deriving DecidableEq, Repr

/-- Embeds `LLMResponse.has_tool_calls` (base.py lines 25-28). -/
def LLMResponse.has_tool_calls (r : LLMResponse) : Bool :=
  !r.tool_calls.isEmpty

/-- Embeds `StreamDelta` (base.py lines 31-50). -/
structure StreamDelta where
  content_delta : Option String
  thinking_delta : Option String
  tool_call_index : Option Nat
  tool_call_id : Option String
  tool_call_name : Option String
  tool_call_arguments_delta : Option String
  finish_reason : Option String
deriving DecidableEq, Repr

/-- Python truthiness of an optional string (`None` and `""` are falsy),
used wherever the source truth-tests such a field. -/
def optTruthy : Option String → Bool
  | none => false
  | some s => !(s == "")

/-- Python `x or ""` on an optional string. -/
def pyOr : Option String → String
  | none => ""
  | some s => s

/-- Embeds `LiteLLMProvider.chat` (litellm_provider.py lines 104-161).  The
completion call together with `_parse_response` is an oracle
`Except String LLMResponse` (both run inside the same `try`); the kwargs
assembly above the call does not affect the exception contract.  Any
exception is converted to an error response. -/
def LiteLLMProvider.chat (outcome : Except String LLMResponse) : LLMResponse :=
  match outcome with
  | .ok r => r
  | .error e =>
    { content := some ("Error calling LLM: " ++ e)
      tool_calls := []
      finish_reason := "error"
      reasoning_content := none }

/-! ### SSE request context  (src/nanobot/sse/context.py) -/

/-- Embeds `RequestContext` (context.py lines 28-105).  `uuid.uuid4().hex[:16]`
is an oracle `idSupply` consumed at index `idIdx`; `message_order` and
`current_message_id` are the mutable runtime fields. -/
structure RequestContext where
  session_id : String
  request_id : String
  agent_type : String
  skill_list : List String
  tool_list : List String
  stream : Bool
  enable_thinking : Bool
  message_order : Nat
  current_message_id : Option String
  idSupply : Nat → String
  idIdx : Nat

/-- Embeds `RequestContext.next_order` (context.py lines 56-59). -/
def RequestContext.next_order (c : RequestContext) : Nat × RequestContext :=
  (c.message_order + 1, { c with message_order := c.message_order + 1 })

/-- Embeds `RequestContext.new_message_id` (context.py lines 61-69). -/
def RequestContext.new_message_id (c : RequestContext) : String × RequestContext :=
  (c.idSupply c.idIdx,
    { c with current_message_id := some (c.idSupply c.idIdx), idIdx := c.idIdx + 1 })

/-- The order values returned by `n` successive `next_order()` calls. -/
def nextOrders (c : RequestContext) : Nat → List Nat
  | 0 => []
  | n + 1 =>
    let (v, c2) := c.next_order
    v :: nextOrders c2 n

/-- The `current_message_id` property (context.py lines 71-76): lazily
mints an id on first access. -/
def RequestContext.currentId (c : RequestContext) : String × RequestContext :=
  match c.current_message_id with
  | some i => (i, c)
  | none => c.new_message_id

/-- The `session_key` property (context.py lines 84-87). -/
def RequestContext.session_key (c : RequestContext) : String :=
  "sse:" ++ c.session_id

/-! ### SSE messages and emitter  (src/nanobot/sse/models.py, emitter.py)

Only the event structure matters to the claims, so `to_sse_string`
serialization is not modelled; `tool_arguments` (a dict) is carried as
opaque text and `files` entries likewise. -/

/-- Embeds `SSEMessageBody` (models.py lines 47-55). -/
structure SSEMessageBody where
  content : Option String
  files : Option (List String)
  delta : Option String
  tool_name : Option String
  tool_arguments : Option String
  tool_result : Option String
deriving DecidableEq, Repr

/-- The all-`None` message body. -/
def SSEMessageBody.empty : SSEMessageBody :=
  { content := none, files := none, delta := none, tool_name := none
    tool_arguments := none, tool_result := none }

/-- Embeds `SSEMessage` (models.py lines 62-81). -/
structure SSEMessage where
  stream : Bool
  session_id : String
  request_id : String
  message_id : String
  message_order : Nat
  event_type : String
  status : String
  message_type : String
  error : Option String
  message : Option SSEMessageBody
deriving DecidableEq, Repr

/-- Embeds `SSEEmitter._build` (emitter.py lines 25-46): resolve the message id
(`message_id or ctx.current_message_id`, the Python `or` treating `""` as
absent), then draw the next order number, in that evaluation order. -/
def SSEEmitter.build (c : RequestContext) (messageType status : String)
    (message : Option SSEMessageBody) (error : Option String)
    (messageId : Option String) : SSEMessage × RequestContext :=
  let (mid, c1) :=
    match messageId with
    | some m => if m = "" then c.currentId else (m, c)
    | none => c.currentId
  let (ord, c2) := c1.next_order
  ({ stream := c.stream
     session_id := c.session_id
     request_id := c.request_id
     message_id := mid
     message_order := ord
     event_type := c.agent_type
     status := status
     message_type := messageType
     error := error
     message := message }, c2)

/-- Embeds `SSEEmitter.emit_text_delta` (emitter.py lines 52-58). -/
def SSEEmitter.emit_text_delta (c : RequestContext) (delta : String)
    (messageId : Option String) : SSEMessage × RequestContext :=
  SSEEmitter.build c "text" "processing"
    (some { SSEMessageBody.empty with delta := some delta }) none messageId

/-- Embeds `SSEEmitter.emit_text_complete` (emitter.py lines 60-67). -/
def SSEEmitter.emit_text_complete (c : RequestContext) (content : String)
    (messageId : Option String) : SSEMessage × RequestContext :=
  SSEEmitter.build c "text" "completed"
    (some { SSEMessageBody.empty with content := some content }) none messageId

/-- Embeds `SSEEmitter.emit_thinking_delta` (emitter.py lines 73-79). -/
def SSEEmitter.emit_thinking_delta (c : RequestContext) (delta : String)
    (messageId : Option String) : SSEMessage × RequestContext :=
  SSEEmitter.build c "thought" "processing"
    (some { SSEMessageBody.empty with delta := some delta }) none messageId

/-- Embeds `SSEEmitter.emit_thinking_complete` (emitter.py lines 81-88). -/
def SSEEmitter.emit_thinking_complete (c : RequestContext) (content : String)
    (messageId : Option String) : SSEMessage × RequestContext :=
  SSEEmitter.build c "thought" "completed"
    (some { SSEMessageBody.empty with content := some content }) none messageId

/-- Embeds `SSEEmitter.emit_tool_call` (emitter.py lines 149-164). -/
def SSEEmitter.emit_tool_call (c : RequestContext) (toolName : String)
    (arguments : Option String) (messageId : Option String) :
    SSEMessage × RequestContext :=
  SSEEmitter.build c "tool" "tool_calling"
    (some { SSEMessageBody.empty with
              tool_name := some toolName, tool_arguments := arguments })
    none messageId

/-- Embeds `SSEEmitter.emit_tool_result` (emitter.py lines 166-180). -/
def SSEEmitter.emit_tool_result (c : RequestContext) (toolName result : String)
    (messageId : Option String) : SSEMessage × RequestContext :=
  SSEEmitter.build c "tool_result" "processing"
    (some { SSEMessageBody.empty with
              tool_name := some toolName, tool_result := some result })
    none messageId

/-- Embeds `SSEEmitter.emit_done` (emitter.py lines 186-191). -/
def SSEEmitter.emit_done (c : RequestContext) : SSEMessage × RequestContext :=
  SSEEmitter.build c "done" "completed" none none none

/-- Embeds `SSEEmitter.emit_error` (emitter.py lines 193-199). -/
def SSEEmitter.emit_error (c : RequestContext) (error : String) :
    SSEMessage × RequestContext :=
  SSEEmitter.build c "error" "error" none (some error) none

/-- One emitter call, used to reason about arbitrary emission sequences
(every public `emit_*` delegates to `_build` exactly once). -/
inductive EmitSpec where
  | textDelta : String → Option String → EmitSpec
  | textComplete : String → Option String → EmitSpec
  | thinkingDelta : String → Option String → EmitSpec
  | thinkingComplete : String → Option String → EmitSpec
  | toolCall : String → Option String → Option String → EmitSpec
  | toolResult : String → String → Option String → EmitSpec
  | done : EmitSpec
  | error : String → EmitSpec

/-- Dispatch one `EmitSpec` to the corresponding emitter method. -/
def applyEmit (c : RequestContext) : EmitSpec → SSEMessage × RequestContext
  | .textDelta s mid => SSEEmitter.emit_text_delta c s mid
  | .textComplete s mid => SSEEmitter.emit_text_complete c s mid
  | .thinkingDelta s mid => SSEEmitter.emit_thinking_delta c s mid
  | .thinkingComplete s mid => SSEEmitter.emit_thinking_complete c s mid
  | .toolCall n a mid => SSEEmitter.emit_tool_call c n a mid
  | .toolResult n r mid => SSEEmitter.emit_tool_result c n r mid
  | .done => SSEEmitter.emit_done c
  | .error e => SSEEmitter.emit_error c e

/-- Run a sequence of emitter calls, collecting the emitted events. -/
def emitRun (c : RequestContext) : List EmitSpec → List SSEMessage
  | [] => []
  | s :: rest =>
    let (e, c2) := applyEmit c s
    e :: emitRun c2 rest

/-! ### Messages, sessions, context builder -/

/-- Embeds `InboundMessage` (nanobot/bus/events.py is not shipped under src/;
the fields below are those the agent loop reads, per spec §3). -/
structure InboundMessage where
  channel : String
  sender_id : String
  chat_id : String
  content : String
deriving DecidableEq, Repr

/-- The derived session key `channel:chat_id` (spec §3). -/
def InboundMessage.session_key (m : InboundMessage) : String :=
  m.channel ++ ":" ++ m.chat_id

/-- Embeds `OutboundMessage`; `metaType` is the `metadata["type"]` marker
(`"tool"` on tool-execution notifications), other metadata is not read by
any claim. -/
structure OutboundMessage where
  channel : String
  chat_id : String
  content : String
  metaType : Option String
deriving DecidableEq, Repr

/-- One persisted history entry of a session. -/
structure SessionEntry where
  role : String
  content : String
deriving DecidableEq, Repr

/-- Modelled from the spec: the session store (nanobot/session/manager.py
is not shipped under src/).  Per spec §4.2 it maps `session_key` to the
per-session append-only history; `get_or_create` is idempotent and
`save` persists the session, so the store is the map itself. -/
def SessionStore : Type := String → List SessionEntry

/-- Embeds `get_or_create` followed by `get_history`: the history under a key. -/
def SessionStore.get (s : SessionStore) (k : String) : List SessionEntry := s k

/-- Embeds `session.add_message` twice then `sessions.save(session)`: replace
the history under a key. -/
def SessionStore.save (s : SessionStore) (k : String) (h : List SessionEntry) :
    SessionStore :=
  fun k2 => if k2 = k then h else s k2

/-- The empty store: every session starts with an empty history. -/
def SessionStore.empty : SessionStore := fun _ => []

/-- The claim-C3 shape of a history: consecutive `(user, assistant)`
pairs, in that alternation (an odd-length history never satisfies it). -/
def alternatesUA : List SessionEntry → Bool
  | [] => true
  | u :: a :: rest => u.role == "user" && a.role == "assistant" && alternatesUA rest
  | _ :: [] => false

/-- A message of the wire-format list sent to the provider.  Tool-call
metadata and reasoning passthrough ride on the wire message in Python but
are not read by any claim, so only role and content are tracked. -/
structure WireMsg where
  role : String
  content : Option String
deriving DecidableEq, Repr

/-- A history entry in the LLM wire format (`session.get_history()`). -/
def entryToWire (e : SessionEntry) : WireMsg :=
  { role := e.role, content := some e.content }

/-- Modelled from the spec: `ContextBuilder.build_messages`
(nanobot/agent/context.py is not shipped under src/).  Per spec §2.G and
§4.5 the wire list is the system/skill prompt, then the history, then the
current user message. -/
def build_messages (systemPrompt : String) (history : List WireMsg)
    (current : String) : List WireMsg :=
  { role := "system", content := some systemPrompt } ::
    history ++ [{ role := "user", content := some current }]

/-- Modelled from the spec: `ContextBuilder.add_assistant_message` appends
the assistant turn (its `tool_calls` metadata is carried on the wire but
read by no claim). -/
def add_assistant_message (messages : List WireMsg) (content : Option String) :
    List WireMsg :=
  messages ++ [{ role := "assistant", content := content }]

/-- Modelled from the spec: `ContextBuilder.add_tool_result` appends the
tool-result message correlated by `tool_call_id`. -/
def add_tool_result (messages : List WireMsg) (tcId tcName result : String) :
    List WireMsg :=
  messages ++ [{ role := "tool", content := some (tcId ++ "|" ++ tcName ++ "|" ++ result) }]

/-- Embeds `AgentLoop._extract_last_user_message` (loop.py lines 902-931) on the
modelled wire shape: walk backwards to the last `user` message and return
its text (a message whose content is absent falls through to the next
one, as the `isinstance` checks do); multimodal content lists are not
modelled. -/
def extractLastUserText (messages : List WireMsg) : Option String :=
  go messages.reverse
where
  go : List WireMsg → Option String
    | [] => none
    | m :: rest =>
      if m.role = "user" then
        match m.content with
        | some s => some s
        | none => go rest
      else go rest

/-! ### The reason-act loops  (src/nanobot/agent/loop.py)

The provider is an oracle indexed by the call number (the environment
decides each response); the tool registry is the `Tool String` registry
above, so tool execution is total, exactly as claim C1 establishes for
the Python registry.  Progress-channel tools (`_progress_queue`) are not
part of the modelled registry, so the `hasattr` branch that drains
progress events is always the plain-execution branch. -/

/-- The fixed sentinel of `_process_message` and `_sse_non_stream_loop`
(loop.py lines 274 and 724). -/
def noResponseSentinel : String :=
  "I've completed processing but have no response to give."

/-- The reason-act while loop shared verbatim by `_process_message`
(loop.py lines 214-271) and `_process_system_message` (loop.py lines
336-388): call the provider; with tool calls, append the assistant
message, publish a tool notification to the originating chat, execute
each call through the registry in order and append its result, and
iterate; without tool calls, stop with the response content.  Returns
`none` both on fuel (`max_iterations`) exhaustion and on a tool-less
response with `None` content — the Python code maps both to the
fallback text. -/
def reasonActLoop (chat : Nat → LLMResponse) (tools : List (String × Tool String))
    (ch chId : String) :
    Nat → Nat → List WireMsg → List OutboundMessage →
    Option String × List WireMsg × List OutboundMessage
  | 0, _, messages, outs => (none, messages, outs)
  | fuel + 1, callIdx, messages, outs =>
    let response := chat callIdx
    if response.has_tool_calls then
      let messages2 := add_assistant_message messages response.content
      let step := fun (acc : List WireMsg × List OutboundMessage) (tc : ToolCallRequest) =>
        let outs2 := acc.2 ++ [{ channel := ch, chat_id := chId
                                 content := "正在执行工具: " ++ tc.name
                                 metaType := some "tool" }]
        let result := ToolRegistry.execute tools tc.name tc.arguments
        (add_tool_result acc.1 tc.id tc.name result, outs2)
      let (messages3, outs3) := response.tool_calls.foldl step (messages2, outs)
      reasonActLoop chat tools ch chId fuel (callIdx + 1) messages3 outs3
    else (response.content, messages, outs)

/-- The non-system branch of `AgentLoop._process_message` (loop.py lines
171-290): run the loop on the session history plus the new user message,
fall back to the sentinel, persist the `(user, assistant)` pair, and
return the reply routed back to the inbound channel/chat (inbound
metadata passthrough is not modelled).  Also returns the tool
notifications published while looping. -/
def processMessage (chat : Nat → LLMResponse) (tools : List (String × Tool String))
    (maxIterations : Nat) (systemPrompt : String) (store : SessionStore)
    (msg : InboundMessage) :
    OutboundMessage × SessionStore × List OutboundMessage :=
  let history := store.get msg.session_key
  let messages := build_messages systemPrompt (history.map entryToWire) msg.content
  let (finalOpt, _, outs) :=
    reasonActLoop chat tools msg.channel msg.chat_id maxIterations 0 messages []
  let final := finalOpt.getD noResponseSentinel
  let store2 := store.save msg.session_key
    (history ++ [{ role := "user", content := msg.content },
                 { role := "assistant", content := final }])
  ({ channel := msg.channel, chat_id := msg.chat_id, content := final
     metaType := none }, store2, outs)

/-- Embeds `AgentLoop._process_system_message` (loop.py lines 292-402): parse the
origin pair from `chat_id` (first `:`; fall back to the `cli` channel),
run the same loop against the origin session, fall back to
`"Background task completed."`, persist the pair with the
`"[System: {sender_id}] "`-prefixed user entry, and route the reply to
the origin. -/
def processSystemMessage (chat : Nat → LLMResponse)
    (tools : List (String × Tool String)) (maxIterations : Nat)
    (systemPrompt : String) (store : SessionStore) (msg : InboundMessage) :
    OutboundMessage × SessionStore × List OutboundMessage :=
  let origin := match chatIdSplit msg.chat_id with
    | some p => p
    | none => ("cli", msg.chat_id)
  let sessionKey := origin.1 ++ ":" ++ origin.2
  let history := store.get sessionKey
  let messages := build_messages systemPrompt (history.map entryToWire) msg.content
  let (finalOpt, _, outs) :=
    reasonActLoop chat tools origin.1 origin.2 maxIterations 0 messages []
  let final := finalOpt.getD "Background task completed."
  let store2 := store.save sessionKey
    (history ++ [{ role := "user"
                   content := "[System: " ++ msg.sender_id ++ "] " ++ msg.content },
                 { role := "assistant", content := final }])
  ({ channel := origin.1, chat_id := origin.2, content := final
     metaType := none }, store2, outs)
where
  /-- Embeds `msg.chat_id.split(":", 1)` guarded by `":" in msg.chat_id`
  (loop.py lines 301-309): split at the first colon. -/
  chatIdSplit (s : String) : Option (String × String) :=
    (go s.data).map (fun p => (String.mk p.1, String.mk p.2))
  go : List Char → Option (List Char × List Char)
    | [] => none
    | c :: cs =>
      if c = ':' then some ([], cs)
      else (go cs).map (fun p => (c :: p.1, p.2))

/-- The dispatch at the top of `_process_message` (loop.py lines 181-184):
system-channel messages go to `_process_system_message`. -/
def processInbound (chat : Nat → LLMResponse) (tools : List (String × Tool String))
    (maxIterations : Nat) (systemPrompt : String) (store : SessionStore)
    (msg : InboundMessage) :
    OutboundMessage × SessionStore × List OutboundMessage :=
  if msg.channel = "system" then
    processSystemMessage chat tools maxIterations systemPrompt store msg
  else
    processMessage chat tools maxIterations systemPrompt store msg

/-- Embeds `AgentLoop.process_direct` (loop.py lines 404-431): synthesize an
inbound message and return the reply content. -/
def processDirect (chat : Nat → LLMResponse) (tools : List (String × Tool String))
    (maxIterations : Nat) (systemPrompt : String) (store : SessionStore)
    (content sessionChannel sessionChatId : String) : String :=
  (processInbound chat tools maxIterations systemPrompt store
    { channel := sessionChannel, sender_id := "user", chat_id := sessionChatId
      content := content }).1.content

/-- The bus-driven loop `AgentLoop.run` (loop.py lines 137-164) processing
a finite prefix of the inbound queue: each dequeued message is processed
with its own provider oracle and the store is threaded through. -/
def processSequence (tools : List (String × Tool String)) (maxIterations : Nat)
    (systemPrompt : String) :
    List (InboundMessage × (Nat → LLMResponse)) → SessionStore → SessionStore
  | [], store => store
  | (m, chat) :: rest, store =>
    processSequence tools maxIterations systemPrompt rest
      (processInbound chat tools maxIterations systemPrompt store m).2.1

/-- The session a processed inbound message writes to: the origin session
for system-channel messages, the message's own session otherwise. -/
def affectedKey (m : InboundMessage) : String :=
  if m.channel = "system" then
    match processSystemMessage.chatIdSplit m.chat_id with
    | some p => p.1 ++ ":" ++ p.2
    | none => "cli" ++ ":" ++ m.chat_id
  else m.session_key

/-! ### SSE loops  (src/nanobot/agent/loop.py lines 437-735) -/

/-- Accumulator entry of `pending_tool_calls` in `_sse_stream_loop`
(loop.py lines 548-562). -/
structure PendingTC where
  id : String
  name : String
  arguments_parts : List String
deriving DecidableEq, Repr

/-- Apply one tool-call fragment to a pending accumulator entry
(loop.py lines 556-562; Python truthiness guards each field). -/
def updateTC (tc : PendingTC) (delta : StreamDelta) : PendingTC :=
  let tc1 := if optTruthy delta.tool_call_id
    then { tc with id := pyOr delta.tool_call_id } else tc
  let tc2 := if optTruthy delta.tool_call_name
    then { tc1 with name := pyOr delta.tool_call_name } else tc1
  if optTruthy delta.tool_call_arguments_delta
    then { tc2 with arguments_parts :=
             tc2.arguments_parts ++ [pyOr delta.tool_call_arguments_delta] }
    else tc2

/-- The `pending_tool_calls` dict upsert (loop.py lines 548-562), keyed by
`tool_call_index` and insertion-ordered like a Python dict. -/
def upsertPending (pending : List (Nat × PendingTC)) (idx : Nat)
    (delta : StreamDelta) : List (Nat × PendingTC) :=
  if pending.any (fun p => p.1 = idx) then
    pending.map (fun p => if p.1 = idx then (p.1, updateTC p.2 delta) else p)
  else
    pending ++ [(idx, updateTC
      { id := pyOr delta.tool_call_id, name := pyOr delta.tool_call_name
        arguments_parts := [] } delta)]

/-- Embeds `sorted(pending_tool_calls.items())` (loop.py line 575): ascending by
index (keys are unique, so stability is irrelevant). -/
def sortPendingInsert (x : Nat × PendingTC) :
    List (Nat × PendingTC) → List (Nat × PendingTC)
  | [] => [x]
  | y :: ys => if x.1 < y.1 then x :: y :: ys else y :: sortPendingInsert x ys

/-- Insertion sort over the pending tool-call entries. -/
def sortPending : List (Nat × PendingTC) → List (Nat × PendingTC)
  | [] => []
  | x :: xs => sortPendingInsert x (sortPending xs)

/-- Embeds `json.loads(tc_args_str) if tc_args_str else {}` with permissive error
handling (loop.py lines 597-600): the decoded object is carried as its
raw JSON text; the empty accumulation decodes to the empty object. -/
def parsedArgsText (s : String) : String :=
  if s = "" then "\x7b\x7d" else s

/-- Fold state of the delta-consuming loop of `_sse_stream_loop`. -/
structure StreamTurnState where
  events : List SSEMessage
  ctx : RequestContext
  pending : List (Nat × PendingTC)
  parts : List String

/-- One streamed delta of `_sse_stream_loop` (loop.py lines 532-566):
forward a thinking delta (when enabled), forward and accumulate a text
delta, and accumulate tool-call fragments by index.  The recorded
`finish_reason` is never read afterwards and is dropped. -/
def streamDeltaStep (turnId : String) (st : StreamTurnState) (delta : StreamDelta) :
    StreamTurnState :=
  let st1 :=
    if optTruthy delta.thinking_delta && st.ctx.enable_thinking then
      let (e, c2) := SSEEmitter.emit_thinking_delta st.ctx
        (pyOr delta.thinking_delta) (some turnId)
      { st with events := st.events ++ [e], ctx := c2 }
    else st
  let st2 :=
    if optTruthy delta.content_delta then
      let (e, c2) := SSEEmitter.emit_text_delta st1.ctx
        (pyOr delta.content_delta) (some turnId)
      { st1 with events := st1.events ++ [e], ctx := c2
                 parts := st1.parts ++ [pyOr delta.content_delta] }
    else st1
  match delta.tool_call_index with
  | none => st2
  | some idx => { st2 with pending := upsertPending st2.pending idx delta }

/-- Per-tool-call state of the execution folds below. -/
structure ToolExecState where
  events : List SSEMessage
  ctx : RequestContext
  messages : List WireMsg

/-- Execute one accumulated tool call of `_sse_stream_loop` (loop.py
lines 592-627): emit the call event, execute through the registry (no
progress-channel tool is registered, so the plain branch runs), emit the
result event, and append the wire tool-result. -/
def streamExecTC (tools : List (String × Tool String)) (turnId : String)
    (st : ToolExecState) (tcd : String × String × String) : ToolExecState :=
  let argsText := parsedArgsText tcd.2.2
  let (e1, c1) := SSEEmitter.emit_tool_call st.ctx tcd.2.1 (some argsText) (some turnId)
  let result := ToolRegistry.execute tools tcd.2.1 argsText
  let (e2, c2) := SSEEmitter.emit_tool_result c1 tcd.2.1 result (some turnId)
  { events := st.events ++ [e1, e2], ctx := c2
    messages := add_tool_result st.messages tcd.1 tcd.2.1 result }

/-- Embeds `AgentLoop._sse_stream_loop` (loop.py lines 510-639).  The streaming
provider is an oracle giving the delta list of each call.  Each cycle
mints a message id, folds the deltas, then either executes the
accumulated tool calls and continues, or finishes: the session gains the
`(user, assistant)` pair only when the accumulated content is non-empty,
and nothing is emitted or persisted on fuel exhaustion. -/
def sseStreamLoop (streamChat : Nat → List StreamDelta)
    (tools : List (String × Tool String)) (store : SessionStore) (key : String) :
    Nat → Nat → RequestContext → List WireMsg → List SSEMessage →
    List SSEMessage × RequestContext × List WireMsg × SessionStore
  | 0, _, c, messages, events => (events, c, messages, store)
  | fuel + 1, callIdx, c, messages, events =>
    let (turnId, c1) := c.new_message_id
    let st0 : StreamTurnState := { events := events, ctx := c1, pending := [], parts := [] }
    let st := (streamChat callIdx).foldl (streamDeltaStep turnId) st0
    let fullContent := if String.join st.parts = "" then none else some (String.join st.parts)
    if st.pending.isEmpty then
      let store2 := match fullContent with
        | some fc =>
          let userText := pyOr (extractLastUserText
            (messages.filter (fun m => m.role = "user")))
          store.save key ((store.get key) ++
            [{ role := "user", content := userText },
             { role := "assistant", content := fc }])
        | none => store
      (st.events, st.ctx, messages, store2)
    else
      let dicts := (sortPending st.pending).map
        (fun p => (p.2.id, p.2.name, String.join p.2.arguments_parts))
      let messages2 := add_assistant_message messages fullContent
      let ex := dicts.foldl (streamExecTC tools turnId)
        { events := st.events, ctx := st.ctx, messages := messages2 }
      sseStreamLoop streamChat tools store key fuel (callIdx + 1) ex.ctx ex.messages ex.events

/-- Embeds `AgentLoop._sse_non_stream_loop`, the while part (loop.py lines
654-721): call the provider, mint a message id, forward the complete
thinking block when enabled, then either execute the returned tool calls
and continue, or stop with the response content (`none` on exhaustion and
on a tool-less `None` content alike). -/
def sseNonStreamLoop (chat : Nat → LLMResponse)
    (tools : List (String × Tool String)) :
    Nat → Nat → RequestContext → List WireMsg → List SSEMessage →
    Option String × List SSEMessage × RequestContext × List WireMsg
  | 0, _, c, messages, events => (none, events, c, messages)
  | fuel + 1, callIdx, c, messages, events =>
    let response := chat callIdx
    let (turnId, c1) := c.new_message_id
    let (events1, c2) :=
      if optTruthy response.reasoning_content && c1.enable_thinking then
        let (e, cc) := SSEEmitter.emit_thinking_complete c1
          (pyOr response.reasoning_content) (some turnId)
        (events ++ [e], cc)
      else (events, c1)
    if response.has_tool_calls then
      let messages2 := add_assistant_message messages response.content
      let step := fun (st : ToolExecState) (tc : ToolCallRequest) =>
        let (e1, cc1) := SSEEmitter.emit_tool_call st.ctx tc.name
          (some tc.arguments) (some turnId)
        let result := ToolRegistry.execute tools tc.name tc.arguments
        let (e2, cc2) := SSEEmitter.emit_tool_result cc1 tc.name result (some turnId)
        { events := st.events ++ [e1, e2], ctx := cc2
          messages := add_tool_result st.messages tc.id tc.name result }
      let ex := response.tool_calls.foldl step
        { events := events1, ctx := c2, messages := messages2 }
      sseNonStreamLoop chat tools fuel (callIdx + 1) ex.ctx ex.messages ex.events
    else (response.content, events1, c2, messages)

/-- The tail of `_sse_non_stream_loop` (loop.py lines 723-735): fall back
to the sentinel, emit the complete text under a fresh message id, and
persist the `(user, assistant)` pair. -/
def sseNonStream (chat : Nat → LLMResponse) (tools : List (String × Tool String))
    (maxIterations : Nat) (store : SessionStore) (key : String)
    (c : RequestContext) (messages : List WireMsg) :
    List SSEMessage × RequestContext × SessionStore :=
  let (finalOpt, events, c1, messagesF) :=
    sseNonStreamLoop chat tools maxIterations 0 c messages []
  let final := finalOpt.getD noResponseSentinel
  let (mid, c2) := c1.new_message_id
  let (e, c3) := SSEEmitter.emit_text_complete c2 final (some mid)
  let userText := pyOr (extractLastUserText
    (messagesF.filter (fun m => m.role = "user")))
  let store2 := store.save key ((store.get key) ++
    [{ role := "user", content := userText },
     { role := "assistant", content := final }])
  (events ++ [e], c3, store2)

/-- Embeds `AgentLoop.process_sse` (loop.py lines 437-504).  The generator body
(steps 1-5: session fetch, tool filtering, skill resolution, message
build, and the chosen inner loop) is abstracted as `body`, returning the
events it yielded, the context it left, and — when it raised — the
exception text; the surrounding `try`/`except` then appends `done`, or
`error` followed by `done`. -/
def processSSE (c : RequestContext)
    (body : RequestContext → List SSEMessage × RequestContext × Option String) :
    List SSEMessage :=
  let (events, c1, exc) := body c
  match exc with
  | none =>
    let (d, _) := SSEEmitter.emit_done c1
    events ++ [d]
  | some e =>
    let (er, c2) := SSEEmitter.emit_error c1 e
    let (d, _) := SSEEmitter.emit_done c2
    events ++ [er, d]

/-- The exception-free streaming instantiation of `process_sse` with
`ctx.stream = true` (loop.py lines 460-499): build the wire messages from
the session history and the last user message of the request, run the
streaming loop, and append `done`. -/
def processSSEStream (streamChat : Nat → List StreamDelta)
    (tools : List (String × Tool String)) (maxIterations : Nat)
    (systemPrompt : String) (store : SessionStore) (c : RequestContext)
    (openaiMessages : List WireMsg) : List SSEMessage × SessionStore :=
  let key := c.session_key
  let history := store.get key
  let current := pyOr (extractLastUserText openaiMessages)
  let messages := build_messages systemPrompt (history.map entryToWire) current
  let (events, c1, _, store2) :=
    sseStreamLoop streamChat tools store key maxIterations 0 c messages []
  let (d, _) := SSEEmitter.emit_done c1
  (events ++ [d], store2)

/-- The exception-free non-streaming instantiation of `process_sse` with
`ctx.stream = false` (loop.py lines 460-499). -/
def processSSENonStream (chat : Nat → LLMResponse)
    (tools : List (String × Tool String)) (maxIterations : Nat)
    (systemPrompt : String) (store : SessionStore) (c : RequestContext)
    (openaiMessages : List WireMsg) : List SSEMessage × SessionStore :=
  let key := c.session_key
  let history := store.get key
  let current := pyOr (extractLastUserText openaiMessages)
  let messages := build_messages systemPrompt (history.map entryToWire) current
  let (events, c1, store2) :=
    sseNonStream chat tools maxIterations store key c messages
  let (d, _) := SSEEmitter.emit_done c1
  (events ++ [d], store2)

/-- Embeds `SSEHandler.handle` (handler.py lines 26-67): an `agent_type` of
`"workflow"` or anything other than `"agent"` is rejected with an error
event and a done event before the agent loop is ever consulted; otherwise
the request is delegated to `process_sse` (its body abstracted as in
`processSSE`). -/
def handleSSE (c : RequestContext)
    (agentBody : RequestContext → List SSEMessage × RequestContext × Option String) :
    List SSEMessage :=
  if c.agent_type = "workflow" then
    let (er, c1) := SSEEmitter.emit_error c "workflow agent type is not yet implemented"
    let (d, _) := SSEEmitter.emit_done c1
    [er, d]
  else if c.agent_type ≠ "agent" then
    let (er, c1) := SSEEmitter.emit_error c ("unknown agent_type: " ++ c.agent_type)
    let (d, _) := SSEEmitter.emit_done c1
    [er, d]
  else
    processSSE c agentBody

/-- A fresh `RequestContext` as `RequestContext.from_request` builds it
(context.py lines 91-105): runtime counters at their defaults. -/
def freshCtx (sessionId requestId agentType : String) (stream thinking : Bool)
    (supply : Nat → String) : RequestContext :=
  { session_id := sessionId, request_id := requestId, agent_type := agentType
    skill_list := ["*"], tool_list := ["*"], stream := stream
    enable_thinking := thinking, message_order := 0, current_message_id := none
    idSupply := supply, idIdx := 0 }

end Nanobot

/-! ## Claim theorems -/

namespace Nanobot

/-- Claim C1: for every tool name and parameter mapping,
`ToolRegistry.execute` returns a string and never raises: it is a total
function into `String`, and
(a) an unregistered name yields `"Error: Tool '{name}' not found"`,
(b) failed validation yields a string beginning
    `"Error: Invalid parameters for tool '{name}': "`,
(c) an exception raised by the tool (in validation or execution) yields
    `"Error executing {name}: {message}"`,
(d) otherwise the tool's own result is returned. -/
theorem C1_registry_execute_never_raises {P : Type}
    (tools : List (String × Tool P)) (name : String) (params : P) :
    (lookupTool tools name = none →
      ToolRegistry.execute tools name params = "Error: Tool '" ++ name ++ "' not found") ∧
    (∀ tool errors, lookupTool tools name = some tool →
      tool.validate_params params = .ok errors → errors ≠ [] →
      ∃ rest, ToolRegistry.execute tools name params =
        "Error: Invalid parameters for tool '" ++ name ++ "': " ++ rest) ∧
    (∀ tool msg, lookupTool tools name = some tool →
      (tool.validate_params params = .error msg ∨
        (tool.validate_params params = .ok [] ∧ tool.execute params = .error msg)) →
      ToolRegistry.execute tools name params = "Error executing " ++ name ++ ": " ++ msg) ∧
    (∀ tool result, lookupTool tools name = some tool →
      tool.validate_params params = .ok [] → tool.execute params = .ok result →
      ToolRegistry.execute tools name params = result) := by
  refine ⟨fun h => ?_, fun tool errors h hv hne => ?_, fun tool msg h hve => ?_,
    fun tool result h hv he => ?_⟩
  · simp [ToolRegistry.execute, h]
  · have hne' : errors.isEmpty = false := by
      cases errors with
      | nil => exact absurd rfl hne
      | cons a l => rfl
    refine ⟨String.intercalate "; " errors, ?_⟩
    simp [ToolRegistry.execute, h, hv, hne']
  · rcases hve with hv | ⟨hv, he⟩
    · simp [ToolRegistry.execute, h, hv]
    · simp [ToolRegistry.execute, h, hv, he, List.isEmpty]
  · simp [ToolRegistry.execute, h, hv, he, List.isEmpty]

/-- Concrete sample for C1: a two-tool registry exercised on all four
branches of the theorem. -/
theorem C1_registry_execute_never_raises_witness :
    let demo : Tool Bool :=
      { validate_params := fun p => if p then .ok [] else .ok ["missing x"]
        execute := fun _ => .ok "done" }
    let raising : Tool Bool :=
      { validate_params := fun _ => .ok []
        execute := fun _ => .error "boom" }
    let reg : List (String × Tool Bool) := [("demo", demo), ("raising", raising)]
    ToolRegistry.execute reg "nope" true = "Error: Tool 'nope' not found" ∧
    (∃ rest, ToolRegistry.execute reg "demo" false =
      "Error: Invalid parameters for tool 'demo': " ++ rest) ∧
    ToolRegistry.execute reg "raising" true = "Error executing raising: boom" ∧
    ToolRegistry.execute reg "demo" true = "done" := by
  intro demo raising reg
  refine ⟨?_, ?_, ?_, ?_⟩
  · exact (C1_registry_execute_never_raises reg "nope" true).1 rfl
  · exact (C1_registry_execute_never_raises reg "demo" false).2.1 demo ["missing x"]
      rfl rfl (by decide)
  · exact (C1_registry_execute_never_raises reg "raising" true).2.2.1 raising "boom"
      rfl (.inr ⟨rfl, rfl⟩)
  · exact (C1_registry_execute_never_raises reg "demo" true).2.2.2 demo "done"
      rfl rfl rfl

/-! ### Emitter order bookkeeping -/

/-- Embeds `_build` stamps the next order number and carries the given type,
status, error and body onto the event; the returned context has its
order counter advanced by exactly one. -/
theorem build_spec (c : RequestContext) (t st : String)
    (m : Option SSEMessageBody) (er : Option String) (mid : Option String) :
    (SSEEmitter.build c t st m er mid).1.message_type = t ∧
    (SSEEmitter.build c t st m er mid).1.status = st ∧
    (SSEEmitter.build c t st m er mid).1.error = er ∧
    (SSEEmitter.build c t st m er mid).1.message = m ∧
    (SSEEmitter.build c t st m er mid).1.message_order = c.message_order + 1 ∧
    (SSEEmitter.build c t st m er mid).2.message_order = c.message_order + 1 := by
  rcases mid with _ | m' <;>
    [skip; by_cases hm : m' = ""] <;>
    rcases hc : c.current_message_id with _ | i <;>
      simp [SSEEmitter.build, RequestContext.currentId, hc,
        RequestContext.new_message_id, RequestContext.next_order, *]

/-- Every public `emit_*` method draws exactly one order number. -/
theorem applyEmit_order (c : RequestContext) (s : EmitSpec) :
    (applyEmit c s).1.message_order = c.message_order + 1 ∧
    (applyEmit c s).2.message_order = c.message_order + 1 := by
  cases s <;>
    simp only [applyEmit, SSEEmitter.emit_text_delta, SSEEmitter.emit_text_complete,
      SSEEmitter.emit_thinking_delta, SSEEmitter.emit_thinking_complete,
      SSEEmitter.emit_tool_call, SSEEmitter.emit_tool_result,
      SSEEmitter.emit_done, SSEEmitter.emit_error] <;>
    exact ⟨(build_spec ..).2.2.2.2.1, (build_spec ..).2.2.2.2.2⟩

/-- The orders of any emission sequence starting at counter value `o`
form `o+1, o+2, …`. -/
theorem emitRun_orders (specs : List EmitSpec) :
    ∀ c : RequestContext, (emitRun c specs).map SSEMessage.message_order =
      List.range' (c.message_order + 1) specs.length := by
  induction specs with
  | nil => intro c; simp [emitRun]
  | cons s rest ih =>
    intro c
    have h := applyEmit_order c s
    calc (emitRun c (s :: rest)).map SSEMessage.message_order
        = (applyEmit c s).1.message_order ::
            (emitRun (applyEmit c s).2 rest).map SSEMessage.message_order := by
          simp [emitRun]
      _ = (c.message_order + 1) ::
            List.range' ((applyEmit c s).2.message_order + 1) rest.length := by
          rw [h.1, ih]
      _ = List.range' (c.message_order + 1) (rest.length + 1) := by
          rw [h.2, List.range'_succ]
      _ = List.range' (c.message_order + 1) (s :: rest).length := by
          simp

/-- The iterated `next_order` values from counter value `o` are
`o+1, o+2, …`. -/
theorem nextOrders_spec (n : Nat) :
    ∀ c : RequestContext, nextOrders c n = List.range' (c.message_order + 1) n := by
  induction n with
  | zero => intro c; simp [nextOrders]
  | succ n ih =>
    intro c
    simp only [nextOrders, RequestContext.next_order, ih, List.range'_succ]

/-- Claim C6: successive `next_order()` calls on a fresh request context
return 1, 2, 3, … with no gaps or reuse, and since every emitted event
draws exactly one order number, each event of an emission sequence
carries a `message_order` strictly greater than the previous one. -/
theorem C6_message_order_strictly_increasing (c : RequestContext)
    (n : Nat) (specs : List EmitSpec) (h : c.message_order = 0) :
    nextOrders c n = List.range' 1 n ∧
    (emitRun c specs).map SSEMessage.message_order = List.range' 1 specs.length ∧
    List.Chain' (· < ·) ((emitRun c specs).map SSEMessage.message_order) := by
  refine ⟨by rw [nextOrders_spec, h], by rw [emitRun_orders, h], ?_⟩
  rw [emitRun_orders]
  have hp : List.Pairwise (· < ·)
      (List.range' (c.message_order + 1) specs.length) :=
    List.pairwise_lt_range' (c.message_order + 1) specs.length 1 (by omega)
  exact hp.chain'

/-- Concrete sample for C6: three emitter calls on a fresh context carry
orders 1, 2, 3. -/
theorem C6_message_order_strictly_increasing_witness :
    let c := freshCtx "s" "r" "agent" true false (fun _ => "id")
    nextOrders c 3 = [1, 2, 3] ∧
    (emitRun c [.textDelta "a" none, .toolCall "t" none none, .done]).map
      SSEMessage.message_order = [1, 2, 3] := by
  intro c
  have h := C6_message_order_strictly_increasing c 3
    [.textDelta "a" none, .toolCall "t" none none, .done] rfl
  exact ⟨h.1, h.2.1⟩

/-! ### Pattern-matcher lemmas -/

/-- A bare `*` token list matches every string (given enough fuel). -/
theorem globMatchF_star : ∀ (cs : List Char) (f : Nat), cs.length + 2 ≤ f →
    globMatchF f [.star] cs = true := by
  intro cs
  induction cs with
  | nil =>
    intro f hf
    match f, hf with
    | f' + 2, _ => rfl
  | cons c cs ih =>
    intro f hf
    match f, hf with
    | f' + 1, hf =>
      have h1 : globMatchF f' [] (c :: cs) = false := by
        cases f' <;> rfl
      have h2 : globMatchF f' [.star] cs = true := by
        apply ih
        simp only [List.length_cons] at hf
        omega
      simp [globMatchF, h1, h2]

/-- Embeds `fnmatch` on the pattern `"*"` accepts every name. -/
theorem fnmatchB_star (n : String) : fnmatchB n "*" = true := by
  have ht : translateTokens "*".data = [.star] := rfl
  unfold fnmatchB globMatch
  rw [ht]
  refine globMatchF_star n.data _ ?_
  simp only [List.length_cons, List.length_nil]
  omega

/-- The matcher's inner loop is first-occurrence deduplication of the
filtered name list. -/
theorem matchLoop_eq (patterns : List String) : ∀ (ns seen : List String),
    matchLoop patterns ns seen =
      firstDedup (ns.filter (fun n => patterns.any (fun p => fnmatchB n p))) seen := by
  intro ns
  induction ns with
  | nil => intro seen; rfl
  | cons n ns ih =>
    intro seen
    cases hm : patterns.any (fun pat => fnmatchB n pat) with
    | true =>
      simp only [matchLoop, List.filter_cons, hm, eq_self_iff_true, if_true,
        firstDedup, ih]
    | false =>
      simp only [matchLoop, List.filter_cons, hm, Bool.false_eq_true, if_false, ih]

/-- Membership in `firstDedup`: exactly the list elements not already
seen. -/
theorem firstDedup_mem : ∀ (l seen : List String) (x : String),
    x ∈ firstDedup l seen ↔ x ∈ l ∧ x ∉ seen := by
  intro l
  induction l with
  | nil => intro seen x; simp [firstDedup]
  | cons n ns ih =>
    intro seen x
    by_cases hs : n ∈ seen
    · rw [firstDedup, if_pos hs, ih]
      constructor
      · rintro ⟨hx, hns⟩
        exact ⟨List.mem_cons_of_mem n hx, hns⟩
      · rintro ⟨hx, hns⟩
        rcases List.mem_cons.mp hx with rfl | hx
        · exact absurd hs hns
        · exact ⟨hx, hns⟩
    · rw [firstDedup, if_neg hs]
      constructor
      · intro hx
        rcases List.mem_cons.mp hx with rfl | hx
        · exact ⟨List.mem_cons_self x ns, hs⟩
        · obtain ⟨h1, h2⟩ := (ih (n :: seen) x).mp hx
          exact ⟨List.mem_cons_of_mem n h1,
            fun hm => h2 (List.mem_cons_of_mem n hm)⟩
      · rintro ⟨hx, hns⟩
        rcases List.mem_cons.mp hx with rfl | hx
        · exact List.mem_cons_self x _
        · by_cases hxn : x = n
          · exact hxn ▸ List.mem_cons_self n _
          · refine List.mem_cons_of_mem n ((ih (n :: seen) x).mpr ⟨hx, ?_⟩)
            intro hm
            rcases List.mem_cons.mp hm with h | h
            · exact hxn h
            · exact hns h

/-- Embeds `firstDedup` never repeats a name. -/
theorem firstDedup_nodup : ∀ (l seen : List String),
    (firstDedup l seen).Nodup := by
  intro l
  induction l with
  | nil => intro seen; simp [firstDedup]
  | cons n ns ih =>
    intro seen
    by_cases hs : n ∈ seen
    · simpa [firstDedup, if_pos hs] using ih seen
    · simp only [firstDedup, if_neg hs, List.nodup_cons]
      refine ⟨fun hm => ?_, ih (n :: seen)⟩
      exact ((firstDedup_mem ns (n :: seen) n).mp hm).2 (List.mem_cons_self n seen)

/-- Embeds `firstDedup` preserves the order of first appearances: it is a
sublist of its input. -/
theorem firstDedup_sublist : ∀ (l seen : List String),
    List.Sublist (firstDedup l seen) l := by
  intro l
  induction l with
  | nil => intro seen; simp [firstDedup]
  | cons n ns ih =>
    intro seen
    by_cases hs : n ∈ seen
    · simpa [firstDedup, if_pos hs] using (ih seen).trans (List.sublist_cons_self n ns)
    · simpa [firstDedup, if_neg hs] using (ih (n :: seen)).cons₂ n

/-- Claim C5: `_match_patterns` returns the names unchanged when the
pattern list is empty or exactly `["*"]`; otherwise it returns exactly
the names matched by at least one glob pattern, without duplicates, in
the order the names first appear.  The matcher is the `fnmatch` glob
language: `*` (which accepts everything), prefix patterns, substring
patterns and `?` single-character wildcards, as witnessed by the sample
evaluations in the last conjunct. -/
theorem C5_match_patterns_glob (names patterns : List String) :
    ((patterns = [] ∨ patterns = ["*"]) → matchPatterns names patterns = names) ∧
    (¬(patterns = [] ∨ patterns = ["*"]) →
      matchPatterns names patterns =
        firstDedup (names.filter (fun n => patterns.any (fun p => fnmatchB n p))) [] ∧
      (∀ x, x ∈ matchPatterns names patterns ↔
        x ∈ names ∧ patterns.any (fun p => fnmatchB x p) = true) ∧
      (matchPatterns names patterns).Nodup ∧
      List.Sublist (matchPatterns names patterns) names) ∧
    (∀ n, fnmatchB n "*" = true) ∧
    (fnmatchB "read_file" "read_*" = true ∧ fnmatchB "exec" "read_*" = false ∧
     fnmatchB "write_file" "*file*" = true ∧ fnmatchB "web_ab" "web_??" = true ∧
     fnmatchB "web_abc" "web_??" = false) := by
  refine ⟨fun h => by simp [matchPatterns, h], fun h => ?_, fnmatchB_star,
    by decide, by decide, by decide, by decide, by decide⟩
  have heq : matchPatterns names patterns =
      firstDedup (names.filter (fun n => patterns.any (fun p => fnmatchB n p))) [] := by
    simp only [matchPatterns, if_neg h]
    exact matchLoop_eq patterns names []
  refine ⟨heq, fun x => ?_, heq ▸ firstDedup_nodup _ _,
    heq ▸ (firstDedup_sublist _ _).trans (List.filter_sublist names)⟩
  rw [heq, firstDedup_mem]
  simp [List.mem_filter]

/-- Concrete sample for C5: the spec's tool-filter scenario — patterns
`["read_*", "exec"]` against the catalog keep exactly `read_file` and
`exec` in registration order — plus the two pass-through cases and
deduplication. -/
theorem C5_match_patterns_glob_witness :
    matchPatterns ["read_file", "write_file", "exec", "web_fetch"]
      ["read_*", "exec"] = ["read_file", "exec"] ∧
    matchPatterns ["a", "b"] [] = ["a", "b"] ∧
    matchPatterns ["a", "b"] ["*"] = ["a", "b"] ∧
    matchPatterns ["a", "b", "a"] ["*", "x"] = ["a", "b"] := by
  refine ⟨?_, ?_, ?_, ?_⟩
  · rw [(C5_match_patterns_glob ["read_file", "write_file", "exec", "web_fetch"]
      ["read_*", "exec"]).2.1 (by decide) |>.1]
    decide
  · exact (C5_match_patterns_glob ["a", "b"] []).1 (Or.inl rfl)
  · exact (C5_match_patterns_glob ["a", "b"] ["*"]).1 (Or.inr rfl)
  · rw [(C5_match_patterns_glob ["a", "b", "a"] ["*", "x"]).2.1 (by decide) |>.1]
    decide

/-- Claim C7: every event list produced by `process_sse` ends with a
`done` event (`message_type = "done"`, `status = "completed"`), and when
the body raises, the emitted `error` event (`message_type = "error"`,
`status = "error"`) is immediately followed by that final `done`. -/
theorem C7_process_sse_terminal_done (c : RequestContext)
    (body : RequestContext → List SSEMessage × RequestContext × Option String) :
    (∃ d, (processSSE c body).getLast? = some d ∧
      d.message_type = "done" ∧ d.status = "completed") ∧
    (∀ evs c1 msg, body c = (evs, c1, some msg) →
      ∃ er d, processSSE c body = evs ++ [er, d] ∧
        er.message_type = "error" ∧ er.status = "error" ∧ er.error = some msg ∧
        d.message_type = "done" ∧ d.status = "completed") := by
  constructor
  · rcases hb : body c with ⟨evs, c1, exc⟩
    cases exc with
    | none =>
      refine ⟨(SSEEmitter.emit_done c1).1, ?_, (build_spec ..).1, (build_spec ..).2.1⟩
      simp only [processSSE, hb]
      exact List.getLast?_concat evs
    | some e =>
      refine ⟨(SSEEmitter.emit_done (SSEEmitter.emit_error c1 e).2).1, ?_,
        (build_spec ..).1, (build_spec ..).2.1⟩
      simp only [processSSE, hb]
      rw [show evs ++ [(SSEEmitter.emit_error c1 e).1,
            (SSEEmitter.emit_done (SSEEmitter.emit_error c1 e).2).1]
          = (evs ++ [(SSEEmitter.emit_error c1 e).1]) ++
            [(SSEEmitter.emit_done (SSEEmitter.emit_error c1 e).2).1] by simp]
      exact List.getLast?_concat _
  · intro evs c1 msg hb
    refine ⟨(SSEEmitter.emit_error c1 msg).1,
      (SSEEmitter.emit_done (SSEEmitter.emit_error c1 msg).2).1, ?_,
      (build_spec ..).1, (build_spec ..).2.1, (build_spec ..).2.2.1,
      (build_spec ..).1, (build_spec ..).2.1⟩
    simp only [processSSE, hb]

/-- Concrete sample for C7: a body that yields one text event and then
raises produces exactly that event, an error event, and a final done. -/
theorem C7_process_sse_terminal_done_witness :
    let c := freshCtx "s" "r" "agent" true false (fun _ => "id")
    let e0 := (SSEEmitter.emit_text_delta c "hi" none).1
    let c0 := (SSEEmitter.emit_text_delta c "hi" none).2
    ∃ er d, processSSE c (fun cc => ([(SSEEmitter.emit_text_delta cc "hi" none).1],
        (SSEEmitter.emit_text_delta cc "hi" none).2, some "boom")) = [e0, er, d] ∧
      er.message_type = "error" ∧ er.status = "error" ∧ er.error = some "boom" ∧
      d.message_type = "done" ∧ d.status = "completed" := by
  intro c e0 c0
  obtain ⟨er, d, heq, h1, h2, h3, h4, h5⟩ :=
    (C7_process_sse_terminal_done c
      (fun cc => ([(SSEEmitter.emit_text_delta cc "hi" none).1],
        (SSEEmitter.emit_text_delta cc "hi" none).2, some "boom"))).2
      [e0] c0 "boom" rfl
  exact ⟨er, d, by simpa using heq, h1, h2, h3, h4, h5⟩

/-- Claim C8: `LiteLLMProvider.chat` never throws — every completion
outcome maps to a response, and an exception `e` maps to the response
whose content is `"Error calling LLM: {e}"` and whose finish reason is
`"error"` (a successful parse is returned unchanged). -/
theorem C8_litellm_chat_never_throws (outcome : Except String LLMResponse) :
    (∀ e, outcome = .error e →
      (LiteLLMProvider.chat outcome).content = some ("Error calling LLM: " ++ e) ∧
      (LiteLLMProvider.chat outcome).finish_reason = "error" ∧
      (LiteLLMProvider.chat outcome).tool_calls = []) ∧
    (∀ r, outcome = .ok r → LiteLLMProvider.chat outcome = r) := by
  constructor
  · rintro e rfl
    exact ⟨rfl, rfl, rfl⟩
  · rintro r rfl
    rfl

/-- Concrete sample for C8: a connection exception becomes an error
response. -/
theorem C8_litellm_chat_never_throws_witness :
    (LiteLLMProvider.chat (.error "connection reset")).content =
      some "Error calling LLM: connection reset" ∧
    (LiteLLMProvider.chat (.error "connection reset")).finish_reason = "error" := by
  have h := (C8_litellm_chat_never_throws (.error "connection reset")).1
    "connection reset" rfl
  exact ⟨h.1, h.2.1⟩

/-- Claim C10: for every SSE request whose `agent_type` is not `"agent"`,
`SSEHandler.handle` emits exactly one error event — with message
`"workflow agent type is not yet implemented"` for `"workflow"` and
`"unknown agent_type: {agent_type}"` otherwise — followed by one done
event, and never invokes the agent loop (the result is the same for
every agent body). -/
theorem C10_handler_rejects_non_agent (c : RequestContext)
    (body : RequestContext → List SSEMessage × RequestContext × Option String)
    (h : c.agent_type ≠ "agent") :
    ∃ er d, handleSSE c body = [er, d] ∧
      er.message_type = "error" ∧ er.status = "error" ∧
      er.error = some (if c.agent_type = "workflow"
        then "workflow agent type is not yet implemented"
        else "unknown agent_type: " ++ c.agent_type) ∧
      d.message_type = "done" ∧ d.status = "completed" ∧
      ∀ body2, handleSSE c body2 = handleSSE c body := by
  by_cases hw : c.agent_type = "workflow"
  · refine ⟨(SSEEmitter.emit_error c "workflow agent type is not yet implemented").1,
      (SSEEmitter.emit_done
        (SSEEmitter.emit_error c "workflow agent type is not yet implemented").2).1,
      ?_, (build_spec ..).1, (build_spec ..).2.1, ?_, (build_spec ..).1,
      (build_spec ..).2.1, ?_⟩
    · simp [handleSSE, hw]
    · rw [if_pos hw]
      exact (build_spec ..).2.2.1
    · intro body2
      simp [handleSSE, hw]
  · refine ⟨(SSEEmitter.emit_error c ("unknown agent_type: " ++ c.agent_type)).1,
      (SSEEmitter.emit_done
        (SSEEmitter.emit_error c ("unknown agent_type: " ++ c.agent_type)).2).1,
      ?_, (build_spec ..).1, (build_spec ..).2.1, ?_, (build_spec ..).1,
      (build_spec ..).2.1, ?_⟩
    · simp [handleSSE, hw, h]
    · rw [if_neg hw]
      exact (build_spec ..).2.2.1
    · intro body2
      simp [handleSSE, hw, h]

/-! ### System-channel origin parsing -/

theorem splitGo_none : ∀ {l : List Char}, ':' ∉ l →
    processSystemMessage.go l = none := by
  intro l
  induction l with
  | nil => intro _; rfl
  | cons c cs ih =>
    intro h
    have hc : ¬c = ':' := fun he => h (he ▸ List.mem_cons_self c cs)
    have hcs : ':' ∉ cs := fun hm => h (List.mem_cons_of_mem c hm)
    simp [processSystemMessage.go, hc, ih hcs]

theorem splitGo_append : ∀ {a : List Char} (b : List Char), ':' ∉ a →
    processSystemMessage.go (a ++ ':' :: b) = some (a, b) := by
  intro a
  induction a with
  | nil => intro b _; simp [processSystemMessage.go]
  | cons c cs ih =>
    intro b h
    have hc : ¬c = ':' := fun he => h (he ▸ List.mem_cons_self c cs)
    have hcs : ':' ∉ cs := fun hm => h (List.mem_cons_of_mem c hm)
    simp [processSystemMessage.go, hc, ih b hcs]

theorem chatIdSplit_no_colon {s : String} (h : ':' ∉ s.data) :
    processSystemMessage.chatIdSplit s = none := by
  simp [processSystemMessage.chatIdSplit, splitGo_none h]

theorem chatIdSplit_colon (oc rest : String) (h : ':' ∉ oc.data) :
    processSystemMessage.chatIdSplit (oc ++ ":" ++ rest) = some (oc, rest) := by
  have hdata : (oc ++ ":" ++ rest).data = oc.data ++ ':' :: rest.data := by
    simp [String.data_append]
  have : processSystemMessage.go (oc ++ ":" ++ rest).data =
      some (oc.data, rest.data) := by
    rw [hdata]
    exact splitGo_append rest.data h
  simp only [processSystemMessage.chatIdSplit, this, Option.map_some']

/-- Claim C4: a system-channel inbound whose `chat_id` is
`origin_channel:origin_chat_id` is routed back as an outbound message
with `channel = origin_channel` and `chat_id = origin_chat_id`, and the
session keyed `origin_channel:origin_chat_id` records the user entry as
the content prefixed with `"[System: {sender_id}] "`, followed by the
assistant reply. -/
theorem C4_system_channel_routing (chat : Nat → LLMResponse)
    (tools : List (String × Tool String)) (maxIterations : Nat)
    (systemPrompt : String) (store : SessionStore) (msg : InboundMessage)
    (oc ocid : String) (hch : msg.channel = "system")
    (hid : msg.chat_id = oc ++ ":" ++ ocid) (hoc : ':' ∉ oc.data) :
    (processInbound chat tools maxIterations systemPrompt store msg).1.channel = oc ∧
    (processInbound chat tools maxIterations systemPrompt store msg).1.chat_id = ocid ∧
    ∃ final,
      (processInbound chat tools maxIterations systemPrompt store msg).1.content = final ∧
      (processInbound chat tools maxIterations systemPrompt store msg).2.1
          (oc ++ ":" ++ ocid) =
        store.get (oc ++ ":" ++ ocid) ++
          [{ role := "user"
             content := "[System: " ++ msg.sender_id ++ "] " ++ msg.content },
           { role := "assistant", content := final }] := by
  have hsplit := chatIdSplit_colon oc ocid hoc
  rw [← hid] at hsplit
  simp only [processInbound, hch, if_pos, processSystemMessage, hsplit,
    eq_self_iff_true, if_true]
  refine ⟨trivial, trivial, _, rfl, ?_⟩
  all_goals simp [SessionStore.save, SessionStore.get]

/-- Concrete sample for C4: the spec's scenario 7 — a child announce on
`chat_id = "telegram:42"` routes to telegram chat 42 and records
`"[System: child] done"`. -/
theorem C4_system_channel_routing_witness :
    let noTools : List (String × Tool String) := []
    let chat : Nat → LLMResponse := fun _ =>
      { content := some "noted", tool_calls := [], finish_reason := "stop"
        reasoning_content := none }
    let msg : InboundMessage :=
      { channel := "system", sender_id := "child", chat_id := "telegram:42"
        content := "done" }
    let r := processInbound chat noTools 20 "sys" SessionStore.empty msg
    r.1.channel = "telegram" ∧ r.1.chat_id = "42" ∧
    ∃ final, r.1.content = final ∧
      r.2.1 "telegram:42" =
        [{ role := "user", content := "[System: child] done" },
         { role := "assistant", content := final }] := by
  intro noTools chat msg r
  obtain ⟨h1, h2, final, h3, h4⟩ :=
    C4_system_channel_routing chat noTools 20 "sys" SessionStore.empty msg
      "telegram" "42" rfl rfl (by decide)
  exact ⟨h1, h2, final, h3, by simpa [SessionStore.get, SessionStore.empty] using h4⟩

/-- Claim C9: a system-channel inbound whose `chat_id` contains no colon
falls back to the `cli` origin: the reply goes out on channel `"cli"`
with the unmodified `chat_id`, and the history written lives under the
session key `"cli:{chat_id}"` (every other session is untouched). -/
theorem C9_system_channel_cli_fallback (chat : Nat → LLMResponse)
    (tools : List (String × Tool String)) (maxIterations : Nat)
    (systemPrompt : String) (store : SessionStore) (msg : InboundMessage)
    (hch : msg.channel = "system") (hnc : ':' ∉ msg.chat_id.data) :
    (processInbound chat tools maxIterations systemPrompt store msg).1.channel = "cli" ∧
    (processInbound chat tools maxIterations systemPrompt store msg).1.chat_id =
      msg.chat_id ∧
    (∃ final,
      (processInbound chat tools maxIterations systemPrompt store msg).1.content = final ∧
      (processInbound chat tools maxIterations systemPrompt store msg).2.1
          ("cli:" ++ msg.chat_id) =
        store.get ("cli:" ++ msg.chat_id) ++
          [{ role := "user"
             content := "[System: " ++ msg.sender_id ++ "] " ++ msg.content },
           { role := "assistant", content := final }]) ∧
    ∀ k, k ≠ "cli:" ++ msg.chat_id →
      (processInbound chat tools maxIterations systemPrompt store msg).2.1 k =
        store.get k := by
  have hsplit := chatIdSplit_no_colon hnc
  have hkey : "cli" ++ ":" ++ msg.chat_id = "cli:" ++ msg.chat_id :=
    congrArg (fun s => s ++ msg.chat_id) (by decide)
  simp only [processInbound, hch, processSystemMessage, hsplit,
    eq_self_iff_true, if_true, hkey]
  refine ⟨trivial, trivial, ⟨_, rfl, ?_⟩, ?_⟩
  · simp [SessionStore.save, SessionStore.get]
  · intro k hk
    simp only [SessionStore.save, SessionStore.get]
    rw [if_neg hk]

/-- Concrete sample for C9: a system announce with `chat_id = "job7"`
routes to `cli` and writes the session `cli:job7`. -/
theorem C9_system_channel_cli_fallback_witness :
    let noTools : List (String × Tool String) := []
    let chat : Nat → LLMResponse := fun _ =>
      { content := some "ok", tool_calls := [], finish_reason := "stop"
        reasoning_content := none }
    let msg : InboundMessage :=
      { channel := "system", sender_id := "spawn", chat_id := "job7"
        content := "finished" }
    let r := processInbound chat noTools 20 "sys" SessionStore.empty msg
    r.1.channel = "cli" ∧ r.1.chat_id = "job7" ∧
    (∃ final, r.2.1 "cli:job7" =
      [{ role := "user", content := "[System: spawn] finished" },
       { role := "assistant", content := final }]) ∧
    r.2.1 "telegram:42" = [] := by
  intro noTools chat msg r
  obtain ⟨h1, h2, ⟨final, -, h3⟩, h4⟩ :=
    C9_system_channel_cli_fallback chat noTools 20 "sys" SessionStore.empty msg
      rfl (by decide)
  refine ⟨h1, h2, ⟨final, by simpa [SessionStore.get, SessionStore.empty] using h3⟩, ?_⟩
  simpa [SessionStore.get, SessionStore.empty] using h4 "telegram:42" (by decide)

/-! ### Iteration-exhaustion lemmas -/

/-- When every provider call in the window returns tool calls, the shared
reason-act loop exhausts its budget and yields no final content. -/
theorem reasonActLoop_exhaust (chat : Nat → LLMResponse)
    (tools : List (String × Tool String)) (ch chId : String) :
    ∀ (fuel callIdx : Nat) (messages : List WireMsg) (outs : List OutboundMessage),
      (∀ i, callIdx ≤ i → i < callIdx + fuel → (chat i).has_tool_calls = true) →
      (reasonActLoop chat tools ch chId fuel callIdx messages outs).1 = none := by
  intro fuel
  induction fuel with
  | zero => intro callIdx messages outs _; rfl
  | succ fuel ih =>
    intro callIdx messages outs h
    have hc : (chat callIdx).has_tool_calls = true :=
      h callIdx (Nat.le_refl _) (by omega)
    simp only [reasonActLoop, hc, if_true]
    exact ih (callIdx + 1) _ _ (fun i h1 h2 => h i (by omega) (by omega))

/-- When every provider call in the window returns tool calls, the
non-streaming SSE loop exhausts its budget and yields no final content. -/
theorem sseNonStreamLoop_exhaust (chat : Nat → LLMResponse)
    (tools : List (String × Tool String)) :
    ∀ (fuel callIdx : Nat) (c : RequestContext) (messages : List WireMsg)
      (events : List SSEMessage),
      (∀ i, callIdx ≤ i → i < callIdx + fuel → (chat i).has_tool_calls = true) →
      (sseNonStreamLoop chat tools fuel callIdx c messages events).1 = none := by
  intro fuel
  induction fuel with
  | zero => intro callIdx c messages events _; rfl
  | succ fuel ih =>
    intro callIdx c messages events h
    have hc : (chat callIdx).has_tool_calls = true :=
      h callIdx (Nat.le_refl _) (by omega)
    simp only [sseNonStreamLoop, hc, if_true]
    exact ih (callIdx + 1) _ _ _ (fun i h1 h2 => h i (by omega) (by omega))

/-- Claim C2, amended: when `max_iterations` cycles are exhausted without
a tool-less provider response, the bus-driven, direct, and SSE
non-streaming entry points deliver the fixed sentinel
`"I've completed processing but have no response to give."` (on
non-system messages), the SSE non-streaming path delivering it as the
final `text`/`completed` event; the SSE *streaming* loop, by contrast,
delivers no sentinel at all (see the counterexample). -/
theorem C2_amended_sentinel_on_exhaustion (chat : Nat → LLMResponse)
    (tools : List (String × Tool String)) (maxIterations : Nat)
    (systemPrompt : String) (store : SessionStore) (msg : InboundMessage)
    (directContent directChannel directChatId key : String)
    (c : RequestContext) (messages : List WireMsg)
    (h : ∀ i, i < maxIterations → (chat i).has_tool_calls = true)
    (hch : msg.channel ≠ "system") (hdc : directChannel ≠ "system") :
    (processInbound chat tools maxIterations systemPrompt store msg).1.content =
      noResponseSentinel ∧
    processDirect chat tools maxIterations systemPrompt store
      directContent directChannel directChatId = noResponseSentinel ∧
    ∃ e, (sseNonStream chat tools maxIterations store key c messages).1.getLast? =
        some e ∧
      e.message_type = "text" ∧ e.status = "completed" ∧
      e.message = some { SSEMessageBody.empty with
        content := some noResponseSentinel } := by
  have hwin : ∀ (ch chId : String) (ms : List WireMsg),
      (reasonActLoop chat tools ch chId maxIterations 0 ms []).1 = none :=
    fun ch chId ms => reasonActLoop_exhaust chat tools ch chId maxIterations 0 ms []
      (fun i _ h2 => h i (by omega))
  refine ⟨?_, ?_, ?_⟩
  · simp only [processInbound, if_neg hch, processMessage, hwin, Option.getD_none]
  · simp only [processDirect, processInbound, if_neg hdc, processMessage, hwin,
      Option.getD_none]
  · rcases hr : sseNonStreamLoop chat tools maxIterations 0 c messages [] with
      ⟨fo, evs, c1, msgsF⟩
    have hfo : fo = none := by
      have := sseNonStreamLoop_exhaust chat tools maxIterations 0 c messages []
        (fun i _ h2 => h i (by omega))
      rw [hr] at this
      exact this
    subst hfo
    refine ⟨(SSEEmitter.emit_text_complete (c1.new_message_id).2 noResponseSentinel
      (some (c1.new_message_id).1)).1, ?_, (build_spec ..).1, (build_spec ..).2.1,
      (build_spec ..).2.2.2.1⟩
    simp only [sseNonStream, hr, Option.getD_none]
    exact List.getLast?_concat _

/-- Concrete sample for the amended C2: a provider that always asks for an
unregistered tool, with `max_iterations = 2`. -/
theorem C2_amended_sentinel_on_exhaustion_witness :
    let chat : Nat → LLMResponse := fun _ =>
      { content := none
        tool_calls := [{ id := "t1", name := "echo", arguments := "\x7b\x7d" }]
        finish_reason := "tool_calls", reasoning_content := none }
    let noTools : List (String × Tool String) := []
    let msg : InboundMessage :=
      { channel := "cli", sender_id := "u", chat_id := "c1", content := "hi" }
    let c := freshCtx "s" "r" "agent" false false (fun n => toString n)
    (processInbound chat noTools 2 "sys" SessionStore.empty msg).1.content =
      noResponseSentinel ∧
    processDirect chat noTools 2 "sys" SessionStore.empty "hi" "cli" "direct" =
      noResponseSentinel ∧
    ∃ e, (sseNonStream chat noTools 2 SessionStore.empty "sse:s" c
        [{ role := "user", content := some "hi" }]).1.getLast? = some e ∧
      e.message_type = "text" ∧
      e.message = some { SSEMessageBody.empty with
        content := some noResponseSentinel } := by
  intro chat noTools msg c
  obtain ⟨h1, h2, e, h3, h4, -, h6⟩ :=
    C2_amended_sentinel_on_exhaustion chat noTools 2 "sys" SessionStore.empty msg
      "hi" "cli" "direct" "sse:s" c [{ role := "user", content := some "hi" }]
      (fun i _ => rfl) (by decide) (by decide)
  exact ⟨h1, h2, e, h3, h4, h6⟩

/-- Counterexample to C2 as stated: on the SSE *streaming* entry point,
exhausting both iterations of a provider that always streams a tool call
delivers no sentinel anywhere — no emitted event is a text event or
carries the sentinel as content or delta — and the session is left
unchanged.  The claim's universal quantification over entry points fails
on the streaming one. -/
theorem C2_counterexample_streaming_no_sentinel :
    (let ctx := freshCtx "s" "r" "agent" true false (fun n => toString n)
     let tcDelta : StreamDelta :=
       { content_delta := none, thinking_delta := none, tool_call_index := some 0
         tool_call_id := some "t1", tool_call_name := some "echo"
         tool_call_arguments_delta := some "\x7b\x7d", finish_reason := none }
     let fin : StreamDelta :=
       { content_delta := none, thinking_delta := none, tool_call_index := none
         tool_call_id := none, tool_call_name := none
         tool_call_arguments_delta := none, finish_reason := some "tool_calls" }
     let echo : Tool String :=
       { validate_params := fun _ => .ok [], execute := fun _ => .ok "ok" }
     let r := processSSEStream (fun _ => [tcDelta, fin]) [("echo", echo)] 2 "sys"
       SessionStore.empty ctx [{ role := "user", content := some "hi" }]
     (∀ e ∈ r.1, e.message_type ≠ "text" ∧
        e.message.bind SSEMessageBody.content ≠ some noResponseSentinel ∧
        e.message.bind SSEMessageBody.delta ≠ some noResponseSentinel) ∧
     (r.1.filter (fun e => e.message_type == "tool")).length = 2 ∧
     r.1.getLast?.map SSEMessage.message_type = some "done" ∧
     r.2 "sse:s" = []) := by
  decide

/-! ### History-shape lemmas -/

/-- Appending one `(user, assistant)` pair preserves the pair shape. -/
theorem alternatesUA_append (u a : SessionEntry) (hu : u.role = "user")
    (ha : a.role = "assistant") :
    ∀ h, alternatesUA h = true → alternatesUA (h ++ [u, a]) = true
  | [], _ => by simp [alternatesUA, hu, ha]
  | x :: [], hx => by simp [alternatesUA] at hx
  | x :: y :: t, hxy => by
    simp only [alternatesUA, Bool.and_eq_true, beq_iff_eq] at hxy
    obtain ⟨⟨h1, h2⟩, h3⟩ := hxy
    have ht := alternatesUA_append u a hu ha t h3
    simp [alternatesUA, h1, h2, ht, List.cons_append]

/-- Every entry of a pair-shaped history is a user or assistant entry. -/
theorem alternatesUA_roles :
    ∀ h, alternatesUA h = true → ∀ e ∈ h, e.role = "user" ∨ e.role = "assistant"
  | [], _, e, he => absurd he (List.not_mem_nil e)
  | _ :: [], hx, _, _ => by simp [alternatesUA] at hx
  | x :: y :: t, hxy, e, he => by
    simp only [alternatesUA, Bool.and_eq_true, beq_iff_eq] at hxy
    obtain ⟨⟨h1, h2⟩, h3⟩ := hxy
    rcases List.mem_cons.mp he with rfl | he2
    · exact Or.inl h1
    · rcases List.mem_cons.mp he2 with rfl | he3
      · exact Or.inr h2
      · exact alternatesUA_roles t h3 e he3

/-- Every processed inbound message appends exactly one
`(user, assistant)` pair to the history of its affected session. -/
theorem processInbound_store (chat : Nat → LLMResponse)
    (tools : List (String × Tool String)) (maxIterations : Nat)
    (systemPrompt : String) (store : SessionStore) (msg : InboundMessage) :
    ∃ u a, (processInbound chat tools maxIterations systemPrompt store msg).2.1 =
      store.save (affectedKey msg)
        (store.get (affectedKey msg) ++
          [{ role := "user", content := u }, { role := "assistant", content := a }]) := by
  by_cases hch : msg.channel = "system"
  · rcases hsp : processSystemMessage.chatIdSplit msg.chat_id with _ | ⟨oc, ocid⟩
    · simp only [processInbound, hch, eq_self_iff_true, if_true,
        processSystemMessage, hsp, affectedKey]
      exact ⟨_, _, rfl⟩
    · simp only [processInbound, hch, eq_self_iff_true, if_true,
        processSystemMessage, hsp, affectedKey]
      exact ⟨_, _, rfl⟩
  · simp only [processInbound, if_neg hch, processMessage, affectedKey, hch,
      if_false]
    exact ⟨_, _, rfl⟩

/-- Length and pair shape of a session under the bus-driven loop. -/
theorem processSequence_store (tools : List (String × Tool String))
    (maxIterations : Nat) (systemPrompt : String) :
    ∀ (jobs : List (InboundMessage × (Nat → LLMResponse))) (store : SessionStore)
      (key : String),
      ((processSequence tools maxIterations systemPrompt jobs store) key).length =
        (store key).length + 2 * jobs.countP (fun j => affectedKey j.1 == key) ∧
      (alternatesUA (store key) = true →
        alternatesUA ((processSequence tools maxIterations systemPrompt jobs store) key)
          = true) := by
  intro jobs
  induction jobs with
  | nil =>
    intro store key
    simp [processSequence]
  | cons jb jobs ih =>
    intro store key
    obtain ⟨m, chat⟩ := jb
    obtain ⟨u, a, hst⟩ :=
      processInbound_store chat tools maxIterations systemPrompt store m
    have hcons : processSequence tools maxIterations systemPrompt ((m, chat) :: jobs)
        store = processSequence tools maxIterations systemPrompt jobs
          ((processInbound chat tools maxIterations systemPrompt store m).2.1) := rfl
    rw [hcons, hst]
    by_cases hk : affectedKey m = key
    · have hsave : (store.save (affectedKey m)
          (store.get (affectedKey m) ++
            [{ role := "user", content := u }, { role := "assistant", content := a }]))
            key = store.get key ++
            [{ role := "user", content := u }, { role := "assistant", content := a }] := by
        subst hk
        simp [SessionStore.save, SessionStore.get]
      obtain ⟨ihl, iha⟩ := ih (store.save (affectedKey m)
        (store.get (affectedKey m) ++
          [{ role := "user", content := u }, { role := "assistant", content := a }])) key
      constructor
      · rw [ihl, hsave, List.countP_cons]
        simp only [SessionStore.get, hk, beq_self_eq_true, if_true,
          List.length_append, List.length_cons, List.length_nil]
        ring
      · intro halt
        apply iha
        rw [hsave]
        exact alternatesUA_append _ _ rfl rfl _ halt
    · have hsave : (store.save (affectedKey m)
          (store.get (affectedKey m) ++
            [{ role := "user", content := u }, { role := "assistant", content := a }]))
            key = store key := by
        simp only [SessionStore.save]
        rw [if_neg (fun he => hk he.symm)]
      obtain ⟨ihl, iha⟩ := ih (store.save (affectedKey m)
        (store.get (affectedKey m) ++
          [{ role := "user", content := u }, { role := "assistant", content := a }])) key
      constructor
      · rw [ihl, hsave, List.countP_cons]
        have : (affectedKey m == key) = false := by
          exact beq_eq_false_iff_ne.mpr hk
        simp [this]
      · intro halt
        apply iha
        rw [hsave]
        exact halt

/-- The non-streaming SSE turn always persists exactly one
`(user, assistant)` pair under its session key. -/
theorem sseNonStream_appends_pair (chat : Nat → LLMResponse)
    (tools : List (String × Tool String)) (maxIterations : Nat)
    (store : SessionStore) (key : String) (c : RequestContext)
    (messages : List WireMsg) :
    ∃ u a, (sseNonStream chat tools maxIterations store key c messages).2.2 =
      store.save key (store.get key ++
        [{ role := "user", content := u }, { role := "assistant", content := a }]) := by
  rcases hr : sseNonStreamLoop chat tools maxIterations 0 c messages [] with
    ⟨fo, evs, c1, msgsF⟩
  simp only [sseNonStream, hr]
  exact ⟨_, _, rfl⟩

/-- Claim C3, amended: through the bus-driven, direct, and system entry
points, the history of a session that received `n` of the processed
messages has length exactly `2n`, alternating a user entry then an
assistant entry, and never contains a tool entry; the SSE non-streaming
turn likewise appends exactly one `(user, assistant)` pair.  The SSE
*streaming* turn, however, appends its pair only when the turn ends with
non-empty streamed content — a turn ending empty (or by iteration
exhaustion) persists nothing (see the counterexample). -/
theorem C3_amended_history_pairs (tools : List (String × Tool String))
    (maxIterations : Nat) (systemPrompt : String)
    (jobs : List (InboundMessage × (Nat → LLMResponse))) (key : String) :
    ((processSequence tools maxIterations systemPrompt jobs SessionStore.empty) key).length
      = 2 * jobs.countP (fun j => affectedKey j.1 == key) ∧
    alternatesUA
      ((processSequence tools maxIterations systemPrompt jobs SessionStore.empty) key)
      = true ∧
    (∀ e ∈ (processSequence tools maxIterations systemPrompt jobs SessionStore.empty) key,
      e.role ≠ "tool") ∧
    ∀ (chat : Nat → LLMResponse) (store : SessionStore) (c : RequestContext)
      (messages : List WireMsg),
      ∃ u a, (sseNonStream chat tools maxIterations store key c messages).2.2 =
        store.save key (store.get key ++
          [{ role := "user", content := u }, { role := "assistant", content := a }]) := by
  obtain ⟨hl, ha⟩ :=
    processSequence_store tools maxIterations systemPrompt jobs SessionStore.empty key
  have halt := ha rfl
  refine ⟨by simpa [SessionStore.empty] using hl, halt, ?_, ?_⟩
  · intro e he
    rcases alternatesUA_roles _ halt e he with h | h <;>
      · rw [h]; decide
  · intro chat store c messages
    exact sseNonStream_appends_pair chat tools maxIterations store key c messages

/-- Concrete sample for the amended C3: three tool-less turns over two
sessions leave `cli:c1` with exactly its two `(user, assistant)` pairs
and no tool entry. -/
theorem C3_amended_history_pairs_witness :
    let chatA : Nat → LLMResponse := fun _ =>
      { content := some "hi", tool_calls := [], finish_reason := "stop"
        reasoning_content := none }
    let m1 : InboundMessage :=
      { channel := "cli", sender_id := "u", chat_id := "c1", content := "hello" }
    let m2 : InboundMessage :=
      { channel := "telegram", sender_id := "u", chat_id := "42", content := "hey" }
    let jobs := [(m1, chatA), (m2, chatA), (m1, chatA)]
    let final := processSequence [] 20 "sys" jobs SessionStore.empty
    (final "cli:c1").length = 2 * 2 ∧ alternatesUA (final "cli:c1") = true ∧
    ∀ e ∈ final "cli:c1", e.role ≠ "tool" := by
  intro chatA m1 m2 jobs final
  obtain ⟨h1, h2, h3, -⟩ := C3_amended_history_pairs [] 20 "sys" jobs "cli:c1"
  refine ⟨?_, h2, h3⟩
  rw [h1]
  decide

/-- Counterexample to C3 as stated: one inbound SSE streaming request
whose provider streams nothing leaves the session history empty — length
0 after processing 1 message, not 2. -/
theorem C3_counterexample_streaming_empty_turn :
    (let ctx := freshCtx "s" "r" "agent" true false (fun n => toString n)
     let r := processSSEStream (fun _ => []) [] 20 "sys" SessionStore.empty ctx
       [{ role := "user", content := some "hello" }]
     r.2 "sse:s" = [] ∧ (r.2 "sse:s").length ≠ 2 * 1) := by
  decide

/-- Concrete sample for C10: a `"workflow"` request is rejected with the
fixed message, independently of the agent body. -/
theorem C10_handler_rejects_non_agent_witness :
    let c := freshCtx "s" "r" "workflow" true false (fun _ => "id")
    ∃ er d, handleSSE c (fun cc => ([], cc, none)) = [er, d] ∧
      er.message_type = "error" ∧
      er.error = some "workflow agent type is not yet implemented" ∧
      d.message_type = "done" := by
  intro c
  obtain ⟨er, d, heq, h1, -, h3, h4, -, -⟩ :=
    C10_handler_rejects_non_agent c (fun cc => ([], cc, none)) (by decide)
  exact ⟨er, d, heq, h1, by simpa using h3, h4⟩

end Nanobot
